import Mathlib

/-!
Verification of the format-resolution and streaming pipeline of the
`universal` media-downloader repository, against its natural-language
specification.  The definitions below are a shallow embedding of the
Python sources `src/api/main_api.py` (FastAPI server) and `src/app.py`
(Flask server): yt-dlp format dictionaries become the `Format`
structure, extractor info dictionaries become `Item`, the selection /
resolution / merge routing code becomes pure Lean functions, and the
in-memory caches become association lists indexed by an explicit clock.
Python string metadata fields (which may be missing or `None`) are
modelled as `Option String`; numeric metadata as `Option Nat`.
-/

namespace Universal

/-- Python truthiness of an optional string: `None` and `""` are falsy. -/
def truthyStr : Option String → Bool
  | none => false
  | some s => !s.isEmpty

/-- Python `a or None` on an optional string: an empty string collapses to `None`. -/
def pyOrNone : Option String → Option String
  | some s => if s.isEmpty then none else some s
  | none => none

/-- Python `a or b or 0` over optional numbers (`0` and `None` are falsy). -/
def pyNumOr (a b : Option Nat) : Nat :=
  match a with
  | some x => if x == 0 then (match b with | some y => y | none => 0) else x
  | none => match b with | some y => y | none => 0

/-- ASCII lowering of one character (the case folding Python's `.lower()` and
`re.IGNORECASE` perform on the ASCII metadata strings in play here). -/
def lowerChar (c : Char) : Char :=
  if 'A' ≤ c && c ≤ 'Z' then Char.ofNat (c.toNat + 32) else c

/-- ASCII lowering of a string. -/
def lowerStr (s : String) : String := ⟨s.data.map lowerChar⟩

/-- Whether `pat` occurs as a contiguous run inside `cs` (Python `pat in s`). -/
def charsHaveInfix (pat : List Char) : List Char → Bool
  | [] => pat.isEmpty
  | c :: rest => pat.isPrefixOf (c :: rest) || charsHaveInfix pat rest

/-- Python `pat in hay` on strings. -/
def strContainsSub (hay pat : String) : Bool :=
  charsHaveInfix pat.data hay.data

/-- Python `s.startswith(pre)`. -/
def strStartsWith (s pre : String) : Bool :=
  pre.data.isPrefixOf s.data

/-- One yt-dlp format dictionary, restricted to the fields the resolution
pipeline reads.  Missing dictionary keys are `none`. -/
structure Format where
  format_id : String := ""
  url : Option String := none
  ext : Option String := none
  acodec : Option String := none
  vcodec : Option String := none
  protocol : Option String := none
  height : Option Nat := none
  fps : Option Nat := none
  tbr : Option Nat := none
  abr : Option Nat := none
  filesize : Option Nat := none
  filesize_approx : Option Nat := none
deriving DecidableEq, Inhabited

/-- One extractor info dictionary (a MediaItem): its id, the extractor's own
nominated top-level `url` (when present), and the candidate formats. -/
structure Item where
  id : Option String := none
  url : Option String := none
  formats : List Format := []
deriving DecidableEq, Inhabited

/-- `f.get("height") or 0` (used as `_h` in `main_api.py` and as `height` in `app.py`). -/
def heightOf (f : Format) : Nat := f.height.getD 0

/-- `_is_progressive_mp4` from `src/api/main_api.py` (lines 511-521): reject a
format whose `acodec` or `vcodec` is literally `"none"`, whose container is
not mp4, or whose protocol mentions m3u8/hls; accept everything else.  Note
that a missing or empty codec field passes the first test. -/
def is_progressive_mp4 (f : Format) : Bool :=
  if f.acodec == some "none" || f.vcodec == some "none" then false
  else if lowerStr (f.ext.getD "") != "mp4" then false
  else
    let proto := lowerStr (f.protocol.getD "")
    if strContainsSub proto "m3u8" || strContainsSub proto "hls" then false
    else true

/-- The progressive classification of `api_video_info` in `src/app.py`
(lines 749-753): both codecs truthy and not `"none"`, protocol not matching
the HLS pattern; no condition on the container. -/
def app_is_progressive (f : Format) : Bool :=
  let has_video := truthyStr f.vcodec && f.vcodec != some "none"
  let has_audio := truthyStr f.acodec && f.acodec != some "none"
  let protoL := lowerStr (f.protocol.getD "")
  has_video && has_audio && !(strContainsSub protoL "m3u8" || strContainsSub protoL "hls")

/-- The progressive rule exactly as the specification words it (claim C6):
non-empty, non-"none" audio and video codecs, a directly-playable (mp4)
container, and a non-segmented protocol.  Stated for comparison with the
code's classifiers. -/
def claimProgressiveRule (f : Format) : Bool :=
  truthyStr f.acodec && f.acodec != some "none" &&
  truthyStr f.vcodec && f.vcodec != some "none" &&
  lowerStr (f.ext.getD "") == "mp4" &&
  !(strContainsSub (lowerStr (f.protocol.getD "")) "m3u8" ||
    strContainsSub (lowerStr (f.protocol.getD "")) "hls")

/-- Numeric value of a run of decimal digit characters. -/
def digitsToNat (ds : List Char) : Nat :=
  ds.foldl (fun a c => a * 10 + (c.toNat - '0'.toNat)) 0

/-- The digit group of the regex `(?i)^mp3[_-]?(\d{2,3})$` used by
`api_stream_mp3` (`src/api/main_api.py` line 1682): case-insensitive `mp3`,
an optional `_` or `-` separator, then exactly two or three digits. -/
def mp3SelectorDigits (s : String) : Option (List Char) :=
  match (lowerStr s).data with
  | 'm' :: 'p' :: '3' :: rest =>
      let ds := match rest with
        | '_' :: r => r
        | '-' :: r => r
        | r => r
      if 2 ≤ ds.length && ds.length ≤ 3 && ds.all Char.isDigit then some ds else none
  | _ => none

/-- Bitrate parsing of `api_stream_mp3` (lines 1680-1684): the regex group if
it matched, else 192; then clamped by `max(32, min(320, bitrate))`. -/
def parse_mp3_bitrate (s : String) : Nat :=
  let b := match mp3SelectorDigits s with
    | some ds => digitsToNat ds
    | none => 192
  max 32 (min 320 b)

/-- The selector shape exactly as claim C10 words it: `mp3_<n>` or `mp3-<n>`
(case-insensitive, 2-3 digits) with a mandatory separator.  Stated for
comparison with the code's regex, whose separator is optional. -/
def claimMp3SelectorMatches (s : String) : Bool :=
  match (lowerStr s).data with
  | 'm' :: 'p' :: '3' :: sep :: ds =>
      (sep == '_' || sep == '-') && 2 ≤ ds.length && ds.length ≤ 3 && ds.all Char.isDigit
  | _ => false

/-- Insert `a` into `l` before the first element it should precede
(`le a b` = "a may come before b"). -/
def insSorted {α : Type} (le : α → α → Bool) (a : α) : List α → List α
  | [] => [a]
  | b :: rest => if le a b then a :: b :: rest else b :: insSorted le a rest

/-- Stable insertion sort.  Python's `list.sort` is specified as a stable
sort by key; any stable sort w.r.t. the same total preorder produces the
same list, so this models `sort(key=..., reverse=True)` with `le` the
descending key comparison. -/
def stableSort {α : Type} (le : α → α → Bool) : List α → List α
  | [] => []
  | a :: rest => insSorted le a (stableSort le rest)

/-- Selection score of `_best_video_per_height` in `src/app.py`
(lines 1322-1329): 1000 for an AVC/H.264 video codec, plus the bitrate
(`tbr or 0`), plus twice the frame rate, plus 50 for an mp4 container. -/
def app_score (f : Format) : Nat :=
  let vcodecL := lowerStr (f.vcodec.getD "")
  (if strStartsWith vcodecL "avc" || strContainsSub vcodecL "h264" then 1000 else 0)
  + f.tbr.getD 0
  + f.fps.getD 0 * 2
  + (if lowerStr (f.ext.getD "") == "mp4" then 50 else 0)

/-- One iteration of the `best_by_h` dictionary update in
`_best_video_per_height`: skip zero-height formats; at the format's height,
replace the current holder only when the new score is strictly greater. -/
def bestStep (m : Nat → Option Format) (f : Format) : Nat → Option Format := fun k =>
  if heightOf f == 0 then m k
  else if k == heightOf f then
    match m (heightOf f) with
    | none => some f
    | some cur => if app_score cur < app_score f then some f else some cur
  else m k

/-- The final `best_by_h` mapping after folding over the source formats. -/
def bestByHeightMap (fs : List Format) : Nat → Option Format :=
  fs.foldl bestStep (fun _ => none)

/-- The set of positive heights occurring in the source list (the keys of
`best_by_h`). -/
def positiveHeights (fs : List Format) : List Nat :=
  (fs.filterMap (fun f => if heightOf f == 0 then none else some (heightOf f))).dedup

/-- Descending sort on `Nat` (Python `sorted(keys, reverse=True)`). -/
def sortDescNat (l : List Nat) : List Nat :=
  stableSort (fun a b => decide (b ≤ a)) l

/-- `_best_video_per_height` from `src/app.py` (lines 1311-1335): keep, per
positive height, the strictly-highest-scoring format (first wins on ties),
returned in descending height order. -/
def best_video_per_height (fs : List Format) : List Format :=
  (sortDescNat (positiveHeights fs)).filterMap (bestByHeightMap fs)

/-- Descending lexicographic comparison on `Nat` pairs, as Python's stable
`sort(key=..., reverse=True)` orders tuples. -/
def lexGE (a b : Nat × Nat) : Bool :=
  b.1 < a.1 || (b.1 == a.1 && b.2 ≤ a.2)

/-- Sort key of the progressive list in `_pick_fast_best_format_id`:
`(_h(f), f.get("tbr") or 0)`. -/
def progKey (f : Format) : Nat × Nat := (heightOf f, f.tbr.getD 0)

/-- `_pick_fast_best_format_id` from `src/api/main_api.py` (lines 524-542):
among progressive mp4 formats sorted by (height, tbr) descending, prefer an
exact height of 720, then 480, then 360; otherwise take the head of the
sorted list.  `none` when no progressive format exists. -/
def pick_fast_best_format_id (item : Item) : Option String :=
  let progressive := item.formats.filter is_progressive_mp4
  if progressive.isEmpty then none
  else
    let sorted := stableSort (fun a b => lexGE (progKey a) (progKey b)) progressive
    match [720, 480, 360].findSome? (fun t => sorted.find? (fun f => heightOf f == t)) with
    | some f => some f.format_id
    | none => some sorted.headI.format_id

/-- `_resolve_direct_url` from `src/api/main_api.py` (lines 403-417): return
the url of the first exact `format_id` match (even when that url is absent or
the format is video-only); for `"best"` with no literal match, resolve the
fast-best pick, falling back to the extractor-nominated top-level url. -/
def resolve_direct_url (info : Item) (format_id : String) : Option String :=
  match info.formats.find? (fun f => f.format_id == format_id) with
  | some f => f.url
  | none =>
    if format_id == "best" then
      match pick_fast_best_format_id info with
      | some fid =>
        match info.formats.find? (fun f => f.format_id == fid) with
        | some f => f.url
        | none => pyOrNone info.url
      | none => pyOrNone info.url
    else none

/-- Outcome of the resolution phase of a streaming endpoint: a resolved
upstream url or an HTTP error status. -/
inductive HttpResult
  | ok (url : String)
  | err (code : Nat)
deriving DecidableEq

/-- The resolution control flow shared by `api_stream` (lines 1565-1621) and
`api_redirect` (lines 1178-1236) of `src/api/main_api.py`, with its effects
made explicit: `cached` is the url found in the `urls:<id>` cache for this
format id (if any), `probe` is the `_head_ok` liveness check, and `extract k`
is the result of the k-th `yt_dlp` extraction this request performs.  The
second component counts how many extractions were run.  An mp3 selector is
rejected up front with HTTP 400; a cached url that passes its probe is
returned with no extraction; otherwise the fresh path extracts, resolves,
probes, re-extracts once on probe failure, and surfaces HTTP 410 when the
retried url is missing or dead.  `api_stream_fresh` is the cache-miss
("fallback: fetch fresh info") portion of that flow, `api_stream_resolution`
the whole of it. -/
def api_stream_fresh (probe : String → Bool) (extract : Nat → Option Item)
    (format_id : String) : HttpResult × Nat :=
  match extract 0 with
  | none => (.err 502, 1)
  | some info =>
    match resolve_direct_url info format_id with
    | none => (.err 404, 1)
    | some direct =>
      if probe direct then (.ok direct, 1)
      else
        match extract 1 with
        | none => (.err 500, 2)
        | some info2 =>
          match resolve_direct_url info2 format_id with
          | none => (.err 410, 2)
          | some d2 => if probe d2 then (.ok d2, 2) else (.err 410, 2)

/-- Full resolution flow of `api_stream` / `api_redirect`: mp3 rejection,
then the cached-url probe, then the fresh path. -/
def api_stream_resolution (cached : Option String) (probe : String → Bool)
    (extract : Nat → Option Item) (format_id : String) : HttpResult × Nat :=
  if strStartsWith format_id "mp3_" then (.err 400, 0)
  else
    match cached with
    | some cu => if probe cu then (.ok cu, 0) else api_stream_fresh probe extract format_id
    | none => api_stream_fresh probe extract format_id

/-- `api_stream` resolution for a single already-extracted item, with no
cache entry and all liveness probes succeeding. -/
def api_stream_resolve (item : Item) (format_id : String) : HttpResult :=
  (api_stream_resolution none (fun _ => true) (fun _ => some item) format_id).1

/-- The video-only test of `api_stream_merge` (line 1808): a truthy, non-"none"
video codec together with a falsy-or-"none" audio codec. -/
def is_video_only (f : Format) : Bool :=
  (truthyStr f.vcodec && f.vcodec != some "none") &&
  (!truthyStr f.acodec || f.acodec == some "none")

/-- The audio-only filter of `api_stream_merge` / `api_stream_mp3`
(lines 1698-1701, 1816-1819): a truthy, non-"none" audio codec together with
a falsy-or-"none" video codec. -/
def is_audio_only (f : Format) : Bool :=
  (truthyStr f.acodec && f.acodec != some "none") &&
  (!truthyStr f.vcodec || f.vcodec == some "none")

/-- `_abr(f)`: `int(f.get("abr") or f.get("tbr") or 0)`. -/
def abrOf (f : Format) : Nat := pyNumOr f.abr f.tbr

/-- `f.get("filesize") or f.get("filesize_approx") or 0`. -/
def fsOf (f : Format) : Nat := pyNumOr f.filesize f.filesize_approx

/-- Sort key for best-audio selection: `(_abr(f), filesize or approx or 0)`. -/
def audioSortKey (f : Format) : Nat × Nat := (abrOf f, fsOf f)

/-- How a streaming request is ultimately served. -/
inductive Resolution
  | direct (url : String)
  | mergeAV (videoUrl : String) (audioUrl : String) (audioTranscode : Bool)
  | transcodeAudio (bitrate : Nat)
  | httpError (code : Nat)
deriving DecidableEq

/-- `api_stream_merge` from `src/api/main_api.py` (lines 1783-1917), up to the
point the ffmpeg subprocess is configured: the requested format id must match
a video-only format with a url (else HTTP 404); the best audio-only stream is
chosen by descending `(abr, filesize)`; audio is transcoded to AAC when its
codec is opus/vorbis or its container is not mp4-compatible. -/
def api_stream_merge (item : Item) (format_id : String) : Resolution :=
  let fmts := item.formats
  let videoUrl : Option String :=
    match fmts.find? (fun f => f.format_id == format_id) with
    | some f => if is_video_only f then f.url else none
    | none => none
  match videoUrl with
  | none => .httpError 404
  | some vu =>
    let audio_streams := fmts.filter is_audio_only
    if audio_streams.isEmpty then .httpError 404
    else
      let best_audio :=
        (stableSort (fun a b => lexGE (audioSortKey a) (audioSortKey b)) audio_streams).headI
      match best_audio.url with
      | none => .httpError 500
      | some au =>
        let audio_ext := lowerStr ((pyOrNone best_audio.ext).getD "m4a")
        let acodecL := lowerStr (best_audio.acodec.getD "")
        let needs := strContainsSub acodecL "opus" || strContainsSub acodecL "vorbis" ||
          !(audio_ext == "m4a" || audio_ext == "mp4" || audio_ext == "aac" || audio_ext == "mp3")
        .mergeAV vu au needs

/-- `api_v2_instant` from `src/api/main_api.py` (lines 1377-1396): an
`mp3_*` selector is routed to the audio-transcode path before any extraction;
otherwise `api_stream` is tried and, on HTTP 404 or 410, the request falls
back to `api_stream_merge`. -/
def api_v2_instant (item : Item) (format_id : String) : Resolution :=
  if strStartsWith format_id "mp3_" then .transcodeAudio (parse_mp3_bitrate format_id)
  else
    match api_stream_resolve item format_id with
    | .ok u => .direct u
    | .err c => if c == 404 || c == 410 then api_stream_merge item format_id else .httpError c

/-- Association-list update keeping the entry's position (a Python dict
assignment). -/
def alUpdate {α : Type} (k : String) (v : α) : List (String × α) → List (String × α)
  | [] => [(k, v)]
  | (k', v') :: rest => if k' == k then (k, v) :: rest else (k', v') :: alUpdate k v rest

/-- Association-list lookup (`dict.get`). -/
def alLookup {α : Type} (k : String) : List (String × α) → Option α
  | [] => none
  | (k', v) :: rest => if k' == k then some v else alLookup k rest

/-- Association-list removal (`dict.pop(key, None)`). -/
def alErase {α : Type} (k : String) : List (String × α) → List (String × α)
  | [] => []
  | (k', v) :: rest => if k' == k then rest else (k', v) :: alErase k rest

/-- One entry of the FastAPI in-memory cache `_info_cache`: the stored value
and its absolute expiry instant. -/
structure CacheEntry (V : Type) where
  value : V
  expire : Nat
deriving DecidableEq

/-- The FastAPI in-memory cache (the fallback store of `_cache_set` /
`_cache_get` when Redis is absent or failing). -/
abbrev MemCache (V : Type) := List (String × CacheEntry V)

/-- Default `_CACHE_TTL` of `src/api/main_api.py` (line 134): 30 minutes. -/
def CACHE_TTL : Nat := 30 * 60

/-- `_cache_set` from `src/api/main_api.py` (lines 139-149), in-memory branch:
store the value with expiry `now + ttl`. -/
def cache_set {V : Type} (c : MemCache V) (key : String) (value : V)
    (ttl now : Nat) : MemCache V :=
  alUpdate key ⟨value, now + ttl⟩ c

/-- `_cache_get` from `src/api/main_api.py` (lines 152-170), in-memory branch:
a present entry whose expiry is strictly in the past is popped and reported
absent; otherwise its value is returned.  The second component is the cache
after the (lazy, read-time) eviction. -/
def cache_get {V : Type} (c : MemCache V) (key : String) (now : Nat) :
    Option V × MemCache V :=
  match alLookup key c with
  | none => (none, c)
  | some e => if e.expire < now then (none, alErase key c) else (some e.value, c)

/-- `CACHE_DURATION` of `src/app.py` (line 66): 5 minutes. -/
def APP_CACHE_DURATION : Nat := 300

/-- The Flask format cache (`format_cache` of `src/app.py`): value plus
insertion timestamp. -/
abbrev AppCache (V : Type) := List (String × (V × Nat))

/-- `cache_formats` from `src/app.py` (lines 95-101). -/
def cache_formats {V : Type} (c : AppCache V) (key : String) (data : V)
    (now : Nat) : AppCache V :=
  alUpdate key (data, now) c

/-- `get_cached_formats` from `src/app.py` (lines 79-93): a hit requires
`now - timestamp < CACHE_DURATION`; an expired entry is deleted on read. -/
def get_cached_formats {V : Type} (c : AppCache V) (key : String) (now : Nat) :
    Option V × AppCache V :=
  match alLookup key c with
  | none => (none, c)
  | some (d, ts) =>
    if now - ts < APP_CACHE_DURATION then (some d, c) else (none, alErase key c)

/-- Primitive operations a streaming generator can perform on its spawned
transcoder subprocess handle. -/
inductive ProcAction
  | closeStdout
  | waitUpTo (seconds : Nat)
  | readStderr
  | kill
  | terminate
deriving DecidableEq

/-- The `finally` block of `ffmpeg_streamer` in both `api_stream_merge`
(lines 1901-1910) and `api_stream_mp3` (lines 1765-1773) of
`src/api/main_api.py`, run on generator teardown (client disconnect
included): it closes the subprocess's stdout and then `process.wait`s with a
5-second timeout (reading stderr afterwards only when the exit code is
non-zero).  This is the complete list of unconditional subprocess operations
on teardown. -/
def ffmpeg_streamer_teardown : List ProcAction :=
  [.closeStdout, .waitUpTo 5]

/-! ### Concrete items used by the theorems below

These mirror typical yt-dlp extractions: `f299`-style DASH video-only
formats, `f140`-style m4a audio-only formats, and `f22`-style progressive
mp4 formats. -/

/-- A DASH video-only format (no audio codec). -/
def f299 : Format :=
  { format_id := "299", url := some "https://v.test/299", ext := some "mp4",
    acodec := some "none", vcodec := some "avc1.64002a", protocol := some "https",
    height := some 1080, fps := some 60, tbr := some 4400 }

/-- An m4a audio-only format. -/
def f140 : Format :=
  { format_id := "140", url := some "https://a.test/140", ext := some "m4a",
    acodec := some "mp4a.40.2", vcodec := some "none", protocol := some "https",
    abr := some 129, tbr := some 129, filesize := some 3000000 }

/-- A progressive 1080p mp4 format (audio and video combined). -/
def f137p : Format :=
  { format_id := "137p", url := some "https://v.test/1080", ext := some "mp4",
    acodec := some "mp4a.40.2", vcodec := some "avc1.640028", protocol := some "https",
    height := some 1080, fps := some 30, tbr := some 4000 }

/-- A progressive 720p mp4 format (audio and video combined). -/
def f22 : Format :=
  { format_id := "22", url := some "https://v.test/720", ext := some "mp4",
    acodec := some "mp4a.40.2", vcodec := some "avc1.64001f", protocol := some "https",
    height := some 720, fps := some 30, tbr := some 2000 }

/-- An item exposing only a video-only and an audio-only format (a typical
DASH-only extraction), with no extractor-nominated top-level url. -/
def itemVA : Item := { id := some "vidVA", formats := [f299, f140] }

/-- The same DASH-only item, but with an extractor-nominated top-level url. -/
def itemVAu : Item :=
  { id := some "vidVAu", url := some "https://cdn.test/best.mp4", formats := [f299, f140] }

/-- An item with two progressive mp4 formats, 1080p and 720p, where the
1080p one has the strictly higher selection score. -/
def itemProg : Item := { id := some "vidProg", formats := [f137p, f22] }

/-- A format whose audio codec is present but empty: video-only in intent,
yet not excluded by `_is_progressive_mp4`'s literal `== "none"` test. -/
def fEmptyAudio : Format :=
  { format_id := "598", ext := some "mp4", acodec := some "",
    vcodec := some "avc1.4d401f", protocol := some "https",
    height := some 360, fps := some 30, tbr := some 700 }

/-- 720p/30fps/mp4/AVC format for the deduplication counterexample. -/
def g720avc : Format :=
  { format_id := "g1", height := some 720, fps := some 30, ext := some "mp4",
    vcodec := some "avc1.64001f", acodec := some "none", tbr := some 1000 }

/-- 720p/60fps/webm/VP9 format: same height as `g720avc` but a different
frame rate and container. -/
def g720vp9 : Format :=
  { format_id := "g2", height := some 720, fps := some 60, ext := some "webm",
    vcodec := some "vp9", acodec := some "none", tbr := some 900 }

/-! ## Helper lemmas -/

/-- Looking up a key right after updating it yields the new value. -/
theorem alLookup_alUpdate_self {α : Type} (k : String) (v : α) :
    ∀ c : List (String × α), alLookup k (alUpdate k v c) = some v
  | [] => by simp [alUpdate, alLookup]
  | (k', v') :: rest => by
      by_cases h : k' == k
      · simp [alUpdate, alLookup, h]
      · simp [alUpdate, alLookup, h, alLookup_alUpdate_self k v rest]

/-- Membership through one sorted insertion. -/
theorem mem_insSorted {α : Type} (le : α → α → Bool) (a x : α) :
    ∀ l : List α, x ∈ insSorted le a l ↔ x = a ∨ x ∈ l
  | [] => by simp [insSorted]
  | b :: rest => by
      by_cases h : le a b
      · simp [insSorted, h]
      · simp [insSorted, h, List.mem_cons, mem_insSorted le a x rest]
        tauto

/-- Sorting does not change membership. -/
theorem mem_stableSort {α : Type} (le : α → α → Bool) (x : α) :
    ∀ l : List α, x ∈ stableSort le l ↔ x ∈ l
  | [] => by simp [stableSort]
  | a :: rest => by
      simp [stableSort, mem_insSorted, List.mem_cons, mem_stableSort le x rest]

/-- Inserting into a list never produces the empty list. -/
theorem insSorted_ne_nil {α : Type} (le : α → α → Bool) (a : α) :
    ∀ l : List α, insSorted le a l ≠ []
  | [] => by simp [insSorted]
  | b :: rest => by by_cases h : le a b <;> simp [insSorted, h]

/-- Sorting preserves emptiness. -/
theorem stableSort_eq_nil {α : Type} (le : α → α → Bool) :
    ∀ l : List α, stableSort le l = [] ↔ l = []
  | [] => by simp [stableSort]
  | a :: rest => by simp [stableSort, insSorted_ne_nil]

/-- A successful height-targeted `find?` returns a member with that height. -/
theorem find?_height_mem {t : Nat} {l : List Format} {f : Format}
    (h : l.find? (fun f => heightOf f == t) = some f) : f ∈ l ∧ heightOf f = t :=
  ⟨List.mem_of_find?_eq_some h, by simpa using List.find?_some h⟩

/-- `bestStep` never downgrades the holder at any height. -/
theorem bestStep_mono (m : Nat → Option Format) (f : Format) (k : Nat) (g' : Format)
    (h : m k = some g') :
    ∃ g, bestStep m f k = some g ∧ app_score g' ≤ app_score g ∧ (g = g' ∨ g = f) := by
  by_cases h0 : heightOf f == 0
  · exact ⟨g', by simp [bestStep, h0, h], le_refl _, Or.inl rfl⟩
  · by_cases hk : k == heightOf f
    · have hkk : k = heightOf f := by simpa using hk
      have hm : m (heightOf f) = some g' := by rw [← hkk]; exact h
      by_cases hs : app_score g' < app_score f
      · exact ⟨f, by simp [bestStep, h0, hk, hm, hs], le_of_lt hs, Or.inr rfl⟩
      · exact ⟨g', by simp [bestStep, h0, hk, hm, hs], le_refl _, Or.inl rfl⟩
    · exact ⟨g', by simp [bestStep, h0, hk, h], le_refl _, Or.inl rfl⟩

/-- Where a value in the folded best-per-height map comes from: either the
initial map, or a list element recorded at its own (non-zero) height. -/
theorem foldl_best_origin :
    ∀ (fs : List Format) (m : Nat → Option Format) (k : Nat) (g : Format),
      (fs.foldl bestStep m) k = some g →
      m k = some g ∨ (g ∈ fs ∧ heightOf g = k ∧ k ≠ 0)
  | [], m, k, g => by simp
  | f :: fs, m, k, g => by
      intro h
      simp only [List.foldl_cons] at h
      rcases foldl_best_origin fs (bestStep m f) k g h with h1 | h2
      · unfold bestStep at h1
        by_cases h0 : heightOf f == 0
        · simp [h0] at h1
          exact Or.inl h1
        · by_cases hk : k == heightOf f
          · have hkk : k = heightOf f := by simpa using hk
            have hk0 : k ≠ 0 := by
              rw [hkk]; simpa using h0
            simp only [h0, hk, if_false, if_true, Bool.false_eq_true] at h1
            cases hm : m (heightOf f) with
            | none =>
                rw [hm] at h1
                simp at h1
                exact Or.inr ⟨by simp [← h1], by rw [← h1, ← hkk], hk0⟩
            | some cur =>
                rw [hm] at h1
                by_cases hs : app_score cur < app_score f
                · simp [hs] at h1
                  exact Or.inr ⟨by simp [← h1], by rw [← h1, ← hkk], hk0⟩
                · simp [hs] at h1
                  exact Or.inl (by rw [hkk, hm, h1])
          · simp [h0, hk] at h1
            exact Or.inl h1
      · exact Or.inr ⟨List.mem_cons_of_mem f h2.1, h2.2⟩

/-- Folding more formats never downgrades an already-recorded holder. -/
theorem foldl_best_mono :
    ∀ (fs : List Format) (m : Nat → Option Format) (k : Nat) (g' : Format),
      m k = some g' →
      ∃ g, (fs.foldl bestStep m) k = some g ∧ app_score g' ≤ app_score g
  | [], m, k, g' => fun h => ⟨g', by simpa using h, le_refl _⟩
  | f :: fs, m, k, g' => by
      intro h
      obtain ⟨g₀, hg₀, hle, _⟩ := bestStep_mono m f k g' h
      obtain ⟨g, hg, hle'⟩ := foldl_best_mono fs (bestStep m f) k g₀ hg₀
      exact ⟨g, by simpa using hg, le_trans hle hle'⟩

/-- The holder the fold records at a non-zero height dominates the score of
every folded format of that height. -/
theorem foldl_best_dom :
    ∀ (fs : List Format) (m : Nat → Option Format) (k : Nat) (g : Format),
      k ≠ 0 → (fs.foldl bestStep m) k = some g →
      ∀ x ∈ fs, heightOf x = k → app_score x ≤ app_score g
  | [], m, k, g => by simp
  | f :: fs, m, k, g => by
      intro hk0 h x hx hxk
      simp only [List.foldl_cons] at h
      rcases List.mem_cons.mp hx with rfl | hx'
      · -- the recorded step for x itself, then monotonicity of the rest
        have h0 : (heightOf x == 0) = false := by
          rw [hxk]; simpa using hk0
        have hkx : (k == heightOf x) = true := by simp [hxk]
        have hstep : ∃ g₀, bestStep m x k = some g₀ ∧ app_score x ≤ app_score g₀ := by
          unfold bestStep
          rw [h0, hkx]
          cases hm : m (heightOf x) with
          | none => exact ⟨x, by simp, le_refl _⟩
          | some cur =>
              by_cases hs : app_score cur < app_score x
              · exact ⟨x, by simp [hs], le_refl _⟩
              · exact ⟨cur, by simp [hs], le_of_not_lt hs⟩
        obtain ⟨g₀, hg₀, hle⟩ := hstep
        obtain ⟨g₁, hg₁, hle'⟩ := foldl_best_mono fs (bestStep m x) k g₀ hg₀
        rw [h] at hg₁
        cases hg₁
        exact le_trans hle hle'
      · exact foldl_best_dom fs (bestStep m f) k g hk0 h x hx' hxk

/-! ## Claim theorems -/

/-- C7 (amended): `_best_video_per_height` scores each candidate as
1000·(AVC/H.264) + bitrate + 2·frameRate + 50·(container = mp4), and keeps,
for every *height* (not per (height, frameRate, container) triple), only a
highest-scoring format: every output entry is an input format of non-zero
height whose score dominates every input format of the same height. -/
theorem best_video_per_height_score_and_dedup (fs : List Format) :
    (∀ f : Format,
      app_score f =
        (if strStartsWith (lowerStr (f.vcodec.getD "")) "avc" ||
            strContainsSub (lowerStr (f.vcodec.getD "")) "h264" then 1000 else 0)
        + f.tbr.getD 0 + 2 * f.fps.getD 0
        + (if lowerStr (f.ext.getD "") == "mp4" then 50 else 0)) ∧
    (∀ g ∈ best_video_per_height fs,
      g ∈ fs ∧ heightOf g ≠ 0 ∧
        ∀ x ∈ fs, heightOf x = heightOf g → app_score x ≤ app_score g) := by
  constructor
  · intro f
    unfold app_score
    ring
  · intro g hg
    obtain ⟨h, _, hbm⟩ := List.mem_filterMap.mp hg
    rcases foldl_best_origin fs (fun _ => none) h g hbm with h1 | h2
    · exact absurd h1 (by simp)
    · obtain ⟨hmem, hh, hk0⟩ := h2
      refine ⟨hmem, by rw [hh]; exact hk0, ?_⟩
      intro x hx hxk
      exact foldl_best_dom fs (fun _ => none) h g hk0 hbm x hx (by rw [hxk, hh])

/-- C7 counterexample: two formats share height 720 but differ in frame rate
(30 vs 60) and container (mp4 vs webm) — not "user-equivalent" under the
claim's (height, frameRate, container) deduplication key — yet the classifier
keeps only the higher-scoring one and drops the other. -/
theorem best_video_per_height_drops_distinct_fps_container :
    best_video_per_height [g720avc, g720vp9] = [g720avc] ∧
    (g720avc.fps == g720vp9.fps) = false ∧
    (g720avc.ext == g720vp9.ext) = false ∧
    (List.contains (best_video_per_height [g720avc, g720vp9]) g720vp9) = false := by
  decide

/-- C6 (amended): the FastAPI classifier `_is_progressive_mp4` accepts a
format iff its audio codec is not the literal "none", its video codec is not
the literal "none", its container lowercases to mp4, and its protocol
mentions neither m3u8 nor hls — a missing or empty codec string is *not*
excluded; the Flask classifier (`api_video_info`) requires both codecs to be
truthy and non-"none" and a non-HLS protocol, with no container condition at
all. -/
theorem progressive_classifier_conditions (f : Format) :
    (is_progressive_mp4 f = true ↔
      (f.acodec ≠ some "none" ∧ f.vcodec ≠ some "none" ∧
       lowerStr (f.ext.getD "") = "mp4" ∧
       strContainsSub (lowerStr (f.protocol.getD "")) "m3u8" = false ∧
       strContainsSub (lowerStr (f.protocol.getD "")) "hls" = false)) ∧
    (app_is_progressive f = true ↔
      (truthyStr f.acodec = true ∧ f.acodec ≠ some "none" ∧
       truthyStr f.vcodec = true ∧ f.vcodec ≠ some "none" ∧
       strContainsSub (lowerStr (f.protocol.getD "")) "m3u8" = false ∧
       strContainsSub (lowerStr (f.protocol.getD "")) "hls" = false)) := by
  constructor
  · unfold is_progressive_mp4
    split_ifs <;> simp_all [Bool.or_eq_true, beq_iff_eq, bne_iff_ne]
    tauto
  · unfold app_is_progressive
    simp only [Bool.and_eq_true, Bool.not_eq_true', Bool.or_eq_false_iff, bne_iff_ne]
    tauto

/-- C6 counterexample: a format whose audio codec is the *empty* string (not
"none") with an AVC video codec, an mp4 container and a plain https protocol:
the claim's rule rejects it (empty audio codec), but `_is_progressive_mp4`
classifies it as progressive. -/
theorem progressive_empty_audio_codec_accepted :
    is_progressive_mp4 fEmptyAudio = true ∧
    truthyStr fEmptyAudio.acodec = false ∧
    claimProgressiveRule fEmptyAudio = false := by
  decide

/-- C8 (amended): for the FastAPI in-memory cache, an entry inserted at `T`
with time-to-live `ttl` (`_CACHE_TTL` defaulting to 30 minutes) is returned
by any read strictly before `T + ttl`, is *still returned at exactly
`T + ttl`* (the expiry test `expire < now` is strict), and is reported
absent by any read strictly after; the Flask format cache (fixed 300-second
TTL, strict `now - timestamp < CACHE_DURATION` test) returns the entry
strictly before `T + 300` and reports it absent at or after `T + 300`.
Expiry is checked lazily at read time in both. -/
theorem cache_ttl_boundaries {V : Type} (c : MemCache V) (c' : AppCache V)
    (k : String) (v : V) (ttl T t : Nat) :
    (t < T + ttl → (cache_get (cache_set c k v ttl T) k t).1 = some v) ∧
    ((cache_get (cache_set c k v ttl T) k (T + ttl)).1 = some v) ∧
    (T + ttl < t → (cache_get (cache_set c k v ttl T) k t).1 = none) ∧
    CACHE_TTL = 30 * 60 ∧
    (T + APP_CACHE_DURATION ≤ t → (get_cached_formats (cache_formats c' k v T) k t).1 = none) ∧
    (t < T + APP_CACHE_DURATION → (get_cached_formats (cache_formats c' k v T) k t).1 = some v) := by
  have hmem : alLookup k (alUpdate k (⟨v, T + ttl⟩ : CacheEntry V) c) = some ⟨v, T + ttl⟩ :=
    alLookup_alUpdate_self k _ c
  have happ : alLookup k (alUpdate k (v, T) c') = some (v, T) :=
    alLookup_alUpdate_self k _ c'
  refine ⟨?_, ?_, ?_, rfl, ?_, ?_⟩
  · intro ht
    simp [cache_get, cache_set, hmem, Nat.not_lt.mpr (le_of_lt ht)]
  · simp [cache_get, cache_set, hmem]
  · intro ht
    simp [cache_get, cache_set, hmem, ht]
  · intro ht
    have : ¬(t - T < APP_CACHE_DURATION) := by omega
    simp [get_cached_formats, cache_formats, happ, this]
  · intro ht
    have : t - T < APP_CACHE_DURATION := by
      unfold APP_CACHE_DURATION at ht ⊢
      omega
    simp [get_cached_formats, cache_formats, happ, this]

/-- C8 counterexample: an entry inserted at time 0 with a 10-second TTL is
still returned by a read at exactly time 10 = T + ttl, where the claim says a
read "at or after T+ttl" reports the entry absent.  (`_CACHE_TTL` itself
defaults to 1800 s ≈ 30 min.) -/
theorem cache_hit_at_exact_expiry :
    (cache_get (cache_set ([] : MemCache String) "k" "v" 10 0) "k" 10).1 = some "v" ∧
    CACHE_TTL = 1800 := by
  decide

/-- C10 (amended): whatever `format_id` string reaches the MP3 endpoint, the
parsed bitrate lies in [32, 320]: a selector matched by the code's regex
(`mp3` + *optional* `_`/`-` separator + 2-3 digits, case-insensitive) has its
digit value clamped into [32, 320], and any unmatched selector defaults to
192. -/
theorem mp3_bitrate_range (s : String) :
    32 ≤ parse_mp3_bitrate s ∧ parse_mp3_bitrate s ≤ 320 ∧
    (mp3SelectorDigits s = none → parse_mp3_bitrate s = 192) ∧
    (∀ ds, mp3SelectorDigits s = some ds →
      parse_mp3_bitrate s = max 32 (min 320 (digitsToNat ds))) := by
  refine ⟨?_, ?_, ?_, ?_⟩
  · unfold parse_mp3_bitrate
    exact Nat.le_max_left _ _
  · unfold parse_mp3_bitrate
    exact max_le (by omega) (Nat.min_le_left _ _)
  · intro h
    unfold parse_mp3_bitrate
    rw [h]
    decide
  · intro ds h
    unfold parse_mp3_bitrate
    rw [h]

/-- C10 counterexample: "mp399" matches neither `mp3_<n>` nor `mp3-<n>` (the
claim's two separator-bearing shapes), so per the claim it should default to
192 kbps; the code's regex makes the separator optional and parses 99. -/
theorem mp3_selector_no_separator_parsed :
    claimMp3SelectorMatches "mp399" = false ∧
    parse_mp3_bitrate "mp399" = 99 := by
  decide

/-- The head of a non-empty list is one of its members. -/
theorem headI_mem {α : Type} [Inhabited α] : ∀ {l : List α}, l ≠ [] → l.headI ∈ l
  | [], h => absurd rfl h
  | a :: t, _ => List.mem_cons_self a t

/-- What `_pick_fast_best_format_id` returns when progressive formats exist:
the id of some progressive member, with height exactly 720 whenever any
progressive format of height 720 is present. -/
theorem pick_fast_best_spec (item : Item)
    (hp : item.formats.filter is_progressive_mp4 ≠ []) :
    ∃ f, f ∈ item.formats ∧ is_progressive_mp4 f = true ∧
      pick_fast_best_format_id item = some f.format_id ∧
      ((∃ g ∈ item.formats, is_progressive_mp4 g = true ∧ heightOf g = 720) →
        heightOf f = 720) := by
  have hne : (item.formats.filter is_progressive_mp4).isEmpty = false := by
    cases hc : item.formats.filter is_progressive_mp4 with
    | nil => exact absurd hc hp
    | cons a l => rfl
  have hmem : ∀ x, x ∈ stableSort (fun a b => lexGE (progKey a) (progKey b))
      (item.formats.filter is_progressive_mp4) ↔
      x ∈ item.formats.filter is_progressive_mp4 :=
    fun x => mem_stableSort _ x _
  have hforms : ∀ x, x ∈ item.formats.filter is_progressive_mp4 →
      x ∈ item.formats ∧ is_progressive_mp4 x = true := by
    intro x hx
    have := List.mem_filter.mp hx
    exact ⟨this.1, this.2⟩
  unfold pick_fast_best_format_id
  simp only [hne, Bool.false_eq_true, if_false]
  cases h720 : (stableSort (fun a b => lexGE (progKey a) (progKey b))
      (item.formats.filter is_progressive_mp4)).find? (fun f => heightOf f == 720) with
  | some f =>
      obtain ⟨hfs, hfh⟩ := find?_height_mem h720
      obtain ⟨hf1, hf2⟩ := hforms f ((hmem f).mp hfs)
      refine ⟨f, hf1, hf2, ?_, fun _ => hfh⟩
      simp [List.findSome?_cons, h720]
  | none =>
      have hno : (∃ g ∈ item.formats, is_progressive_mp4 g = true ∧ heightOf g = 720) →
          False := by
        rintro ⟨g, hg, hgp, hgh⟩
        have hgs := (hmem g).mpr (List.mem_filter.mpr ⟨hg, hgp⟩)
        have := List.find?_eq_none.mp h720 g hgs
        simp [hgh] at this
      cases h480 : (stableSort (fun a b => lexGE (progKey a) (progKey b))
          (item.formats.filter is_progressive_mp4)).find? (fun f => heightOf f == 480) with
      | some f =>
          obtain ⟨hfs, _⟩ := find?_height_mem h480
          obtain ⟨hf1, hf2⟩ := hforms f ((hmem f).mp hfs)
          refine ⟨f, hf1, hf2, ?_, fun hx => absurd hx hno⟩
          simp [List.findSome?_cons, h720, h480]
      | none =>
          cases h360 : (stableSort (fun a b => lexGE (progKey a) (progKey b))
              (item.formats.filter is_progressive_mp4)).find? (fun f => heightOf f == 360) with
          | some f =>
              obtain ⟨hfs, _⟩ := find?_height_mem h360
              obtain ⟨hf1, hf2⟩ := hforms f ((hmem f).mp hfs)
              refine ⟨f, hf1, hf2, ?_, fun hx => absurd hx hno⟩
              simp [List.findSome?_cons, h720, h480, h360]
          | none =>
              have hsne : stableSort (fun a b => lexGE (progKey a) (progKey b))
                  (item.formats.filter is_progressive_mp4) ≠ [] := by
                rw [Ne, stableSort_eq_nil]
                exact hp
              obtain ⟨hf1, hf2⟩ := hforms _ ((hmem _).mp (headI_mem hsne))
              refine ⟨_, hf1, hf2, ?_, fun hx => absurd hx hno⟩
              simp [List.findSome?_cons, h720, h480, h360]

/-- `_resolve_direct_url item "best"` falls back to the extractor-nominated
top-level url when the item has no progressive format (and no format whose id
is literally "best"). -/
theorem resolve_best_no_prog (item : Item)
    (hnb : item.formats.find? (fun f => f.format_id == "best") = none)
    (hp : item.formats.filter is_progressive_mp4 = []) :
    resolve_direct_url item "best" = pyOrNone item.url := by
  unfold resolve_direct_url
  rw [hnb]
  have hpick : pick_fast_best_format_id item = none := by
    unfold pick_fast_best_format_id
    rw [hp]
    rfl
  simp [hpick]

/-- The instant pipeline on `"best"` with no progressive format: a direct
stream of the extractor-nominated url when present, else HTTP 404 (the merge
endpoint rejects `"best"` since no format has that literal id). -/
theorem instant_best_no_prog (item : Item)
    (hnb : item.formats.find? (fun f => f.format_id == "best") = none)
    (hp : item.formats.filter is_progressive_mp4 = []) :
    api_v2_instant item "best" =
      (match pyOrNone item.url with
       | some u => Resolution.direct u
       | none => Resolution.httpError 404) := by
  have hres := resolve_best_no_prog item hnb hp
  have hmp3 : strStartsWith "best" "mp3_" = false := by decide
  cases hu : pyOrNone item.url with
  | some u =>
      simp [api_v2_instant, api_stream_resolve, api_stream_resolution, api_stream_fresh,
        hmp3, hres, hu]
  | none =>
      simp [api_v2_instant, api_stream_resolve, api_stream_resolution, api_stream_fresh,
        api_stream_merge, hmp3, hres, hu, hnb]

/-- The mp3 branch of the instant pipeline: any selector starting with
`mp3_` is routed to the audio-transcode path carrying the parsed bitrate,
before the item's formats are consulted. -/
theorem instant_mp3_route (item : Item) (s : String)
    (h : strStartsWith s "mp3_" = true) :
    api_v2_instant item s = Resolution.transcodeAudio (parse_mp3_bitrate s) := by
  unfold api_v2_instant
  rw [h]
  rfl

/-- The direct-resolution endpoints (`api_stream`, `api_redirect`,
`api_download`) reject any `mp3_*` selector with HTTP 400 before resolving. -/
theorem stream_rejects_mp3 (item : Item) (s : String)
    (h : strStartsWith s "mp3_" = true) :
    api_stream_resolve item s = HttpResult.err 400 := by
  unfold api_stream_resolve api_stream_resolution
  rw [h]
  rfl

set_option maxRecDepth 10000 in
/-- For every valid MP3 bitrate value (32..320), the selector `"mp3_" ++ n`
starts with `mp3_` and parses back to exactly `n`. -/
theorem mp3_selector_roundtrip :
    ∀ n : Nat, n < 321 → 32 ≤ n →
      strStartsWith ("mp3_" ++ Nat.repr n) "mp3_" = true ∧
      parse_mp3_bitrate ("mp3_" ++ Nat.repr n) = n := by
  decide

/-- C9: for every item and every MP3 bitrate `n` between 32 and 320, the
instant pipeline routes the synthetic selector `"mp3_" ++ n` to the
TRANSCODE_AUDIO path carrying bitrate `n`, whatever `candidateFormats`
contains (the decision precedes any format matching), and the
direct-resolution endpoints reject the selector with HTTP 400 as requiring
server-side processing. -/
theorem mp3_selector_signals_transcode (item : Item) (n : Nat)
    (h1 : 32 ≤ n) (h2 : n ≤ 320) :
    api_v2_instant item ("mp3_" ++ Nat.repr n) = Resolution.transcodeAudio n ∧
    api_stream_resolve item ("mp3_" ++ Nat.repr n) = HttpResult.err 400 := by
  obtain ⟨hpre, hval⟩ := mp3_selector_roundtrip n (by omega) h1
  refine ⟨?_, stream_rejects_mp3 item _ hpre⟩
  rw [instant_mp3_route item _ hpre, hval]

/-- C9 witness: the canonical selector `mp3_192` on a concrete item. -/
theorem mp3_selector_witness :
    api_v2_instant itemVA ("mp3_" ++ Nat.repr 192) = Resolution.transcodeAudio 192 ∧
    api_stream_resolve itemVA ("mp3_" ++ Nat.repr 192) = HttpResult.err 400 :=
  mp3_selector_signals_transcode itemVA 192 (by decide) (by decide)

/-- C1: resolving an explicit format id that names a *video-only* format
with a live url does NOT signal a merge: `api_v2_instant` → `api_stream` →
`_resolve_direct_url` returns that format's url as a direct resolution (a
silent video), even though the dedicated merge endpoint recognises the same
format as video-only and would have produced the MERGE_AV pairing. -/
theorem explicit_video_only_streams_direct :
    is_video_only f299 = true ∧
    f299 ∈ itemVA.formats ∧
    api_v2_instant itemVA "299" = Resolution.direct "https://v.test/299" ∧
    api_stream_merge itemVA "299" =
      Resolution.mergeAV "https://v.test/299" "https://a.test/140" false := by
  decide

/-- C2 (amended): on an item with no progressive format (and no format whose
id is literally "best"), even one offering both a video-only and an
audio-only format, resolving `"best"` never takes the MERGE_AV path: it
returns the extractor-nominated top-level url as a direct resolution when one
exists, and otherwise fails with HTTP 404 (FormatNotFound). -/
theorem best_without_progressive_no_merge (item : Item)
    (hnb : item.formats.find? (fun f => f.format_id == "best") = none)
    (hp : item.formats.filter is_progressive_mp4 = [])
    (_hv : ∃ f ∈ item.formats, is_video_only f = true)
    (_ha : ∃ f ∈ item.formats, is_audio_only f = true) :
    api_v2_instant item "best" =
      (match pyOrNone item.url with
       | some u => Resolution.direct u
       | none => Resolution.httpError 404) :=
  instant_best_no_prog item hnb hp

/-- C2 witness: a DASH-only item carrying an extractor-nominated top-level
url resolves `"best"` to that url directly. -/
theorem best_without_progressive_witness :
    api_v2_instant itemVAu "best" = Resolution.direct "https://cdn.test/best.mp4" := by
  have h := best_without_progressive_no_merge itemVAu (by decide) (by decide)
    ⟨f299, by decide, by decide⟩ ⟨f140, by decide, by decide⟩
  exact h.trans (by decide)

/-- C2 counterexample: an item with one video-only format and one audio-only
format, no progressive format, and no extractor-nominated url: resolving
`"best"` fails with HTTP 404 (FormatNotFound) instead of returning a
MERGE_AV resolution. -/
theorem best_without_progressive_404 :
    itemVA.formats.filter is_progressive_mp4 = [] ∧
    is_video_only f299 = true ∧ f299 ∈ itemVA.formats ∧
    is_audio_only f140 = true ∧ f140 ∈ itemVA.formats ∧
    api_v2_instant itemVA "best" = Resolution.httpError 404 := by
  decide

/-- C3 (amended): with at least one progressive format, `"best"` selects a
progressive format by the target-height ladder — an exact 720p progressive
format is preferred whenever one exists (then 480, then 360, then the
highest (height, tbr)) — not the highest §4.2-scoring format; with no
progressive format it falls back directly to the extractor-nominated
top-level url (HTTP 404 when that is also absent), never to a merge
pairing. -/
theorem best_selection_target_ladder (item : Item)
    (hnb : item.formats.find? (fun f => f.format_id == "best") = none) :
    ((item.formats.filter is_progressive_mp4 ≠ []) →
      ∃ f, f ∈ item.formats ∧ is_progressive_mp4 f = true ∧
        pick_fast_best_format_id item = some f.format_id ∧
        ((∃ g ∈ item.formats, is_progressive_mp4 g = true ∧ heightOf g = 720) →
          heightOf f = 720)) ∧
    ((item.formats.filter is_progressive_mp4 = []) →
      api_v2_instant item "best" =
        (match pyOrNone item.url with
         | some u => Resolution.direct u
         | none => Resolution.httpError 404)) :=
  ⟨fun hp => pick_fast_best_spec item hp, fun hp => instant_best_no_prog item hnb hp⟩

/-- C3 witness: on an item with 1080p and 720p progressive formats, the
amended selection rule instantiated concretely. -/
theorem best_selection_target_ladder_witness :
    ∃ f, f ∈ itemProg.formats ∧ is_progressive_mp4 f = true ∧
      pick_fast_best_format_id itemProg = some f.format_id ∧
      ((∃ g ∈ itemProg.formats, is_progressive_mp4 g = true ∧ heightOf g = 720) →
        heightOf f = 720) :=
  (best_selection_target_ladder itemProg (by decide)).1 (by decide)

/-- C3 counterexample: the 1080p progressive format has the strictly higher
§4.2 selection score, yet `"best"` resolves to the 720p one (the target
ladder prefers an exact 720p match). -/
theorem best_ignores_higher_scoring_progressive :
    pick_fast_best_format_id itemProg = some "22" ∧
    f137p ∈ itemProg.formats ∧
    is_progressive_mp4 f137p = true ∧
    app_score f137p > app_score f22 ∧
    (f137p.format_id == "22") = false ∧
    api_v2_instant itemProg "best" = Resolution.direct "https://v.test/720" := by
  decide

/-- C4 (amended): the streaming endpoints never run a third extraction in
one request; a cached url that passes its probe is returned with no
extraction; on the fresh path, a resolved url that fails its probe triggers
exactly one re-extraction, and when the retried resolution is also missing
or dead the request surfaces HTTP 410 after exactly two extractions.  A
cached url that fails its probe enters this same fresh path, so it can incur
two extractions (not the single re-resolution the claim states) before the
410. -/
theorem liveness_retry_bounds (cached : Option String) (probe : String → Bool)
    (extract : Nat → Option Item) (format_id : String) :
    ((api_stream_resolution cached probe extract format_id).2 ≤ 2) ∧
    (∀ cu, cached = some cu → probe cu = true → strStartsWith format_id "mp3_" = false →
      api_stream_resolution cached probe extract format_id = (.ok cu, 0)) ∧
    (∀ i0 d0 i1, cached = none → strStartsWith format_id "mp3_" = false →
      extract 0 = some i0 → resolve_direct_url i0 format_id = some d0 →
      probe d0 = false → extract 1 = some i1 →
      (match resolve_direct_url i1 format_id with
       | none => True
       | some d1 => probe d1 = false) →
      api_stream_resolution cached probe extract format_id = (.err 410, 2)) := by
  have hfresh : (api_stream_fresh probe extract format_id).2 ≤ 2 := by
    unfold api_stream_fresh
    (repeat' split) <;> simp
  refine ⟨?_, ?_, ?_⟩
  · unfold api_stream_resolution
    split
    · simp
    · cases cached with
      | some cu =>
          by_cases hcu : probe cu
          · simp [hcu]
          · simpa [hcu] using hfresh
      | none => simpa using hfresh
  · intro cu hcu hpcu hmp3
    subst hcu
    unfold api_stream_resolution
    simp [hmp3, hpcu]
  · intro i0 d0 i1 hcn hmp3 he0 hr0 hp0 he1 hretry
    subst hcn
    have h410 : api_stream_fresh probe extract format_id = (.err 410, 2) := by
      unfold api_stream_fresh
      simp only [he0, hr0, hp0, he1, Bool.false_eq_true, if_false]
      split
      · rfl
      · next d1 heq =>
          rw [heq] at hretry
          simp [hretry]
    unfold api_stream_resolution
    simp [hmp3, h410]

/-- C4 counterexample: a cached url that fails its liveness probe leads to
*two* fresh extraction attempts (both of whose resolved urls also fail the
probe) before HTTP 410 — the claim allows only one re-resolution after a
cached-probe failure. -/
theorem cached_dead_url_two_reresolutions :
    api_stream_resolution (some "https://cdn.test/stale") (fun _ => false)
      (fun _ => some itemVA) "299" = (HttpResult.err 410, 2) := by
  decide

/-- C5: the teardown that runs when a MERGE_AV / TRANSCODE_AUDIO streaming
generator is torn down (client disconnect included) closes the subprocess's
stdout and waits up to 5 seconds for it to exit — it never issues a kill or
terminate, so a transcoder that does not exit on its own within the wait is
left running (merely awaited, not killed). -/
theorem ffmpeg_teardown_never_kills :
    ffmpeg_streamer_teardown = [ProcAction.closeStdout, ProcAction.waitUpTo 5] ∧
    ffmpeg_streamer_teardown.contains ProcAction.kill = false ∧
    ffmpeg_streamer_teardown.contains ProcAction.terminate = false := by
  decide

end Universal
